import Mathlib

/- Shallow embedding of src/components/CellularAutomata.jsx (the automaton
   evolution engine of the automata repository).

   Modelling conventions:
   - Cell values are Nat (the engine keeps them in 0/1).
   - Rows are List Nat; grids are List (List Nat), oldest row first.
   - A JS array read a[i] that can fall outside the array is List.getD i 0:
     every such read in the translated code is either in range or feeds a
     bitwise operator, where JS coerces undefined to 0.
   - Randomness (Math.random) is passed in explicitly: a per-row oracle
     RowRng carries the mutation draw of getMutatedRule (drawn once per row,
     exactly as the source draws it once per computed line) and a per-lookup
     coin for the randomBoundary mode; random seeding uses a per-cell coin.
   - Rationals stand for the JS floats that are compared against
     mutationProbability; the claims under study take mutationProbability = 0.
   - The negative-capable index arithmetic of getNeighbor is done in Int,
     with Int.tmod for the JS remainder operator (sign of the dividend). -/

namespace CA

/-- The BOUNDARY_MODES array of the source file. -/
def BOUNDARY_MODES : List String :=
  ["wrap", "fixed0", "fixed1", "reflect", "randomBoundary", "gradientBoundary"]

/-- Randomness consumed while computing one row: the Math.random draw and the
Math.floor(Math.random()*256) draw of getMutatedRule, plus one coin per
out-of-range randomBoundary lookup, indexed by the looked-up position. -/
structure RowRng where
  mutCoin : ℚ
  mutRand : Nat
  bCoin : Int → Bool

/-- getMutatedRule: replace the base rule by the random draw when
mutationProbability is positive and the draw falls below it. -/
def getMutatedRule (mutationProbability : ℚ) (mutCoin : ℚ) (mutRand : Nat)
    (baseRule : Nat) : Nat :=
  if 0 < mutationProbability ∧ mutCoin < mutationProbability then mutRand
  else baseRule

/-- getNeighbor: neighbor retrieval under the boundary mode selected by
boundaryIndex into BOUNDARY_MODES; an index outside the array yields a mode
matching no branch, so the final wrap fallback runs, as in the source. -/
def getNeighbor (boundaryIndex : Nat) (bCoin : Int → Bool) (row : List Nat)
    (pos : Int) (width : Nat) : Nat :=
  let mode := BOUNDARY_MODES.getD boundaryIndex "undefined"
  if mode = "wrap" then row.getD ((pos + width).tmod width).toNat 0
  else if mode = "fixed0" then
    if pos < 0 ∨ pos ≥ (width : Int) then 0 else row.getD pos.toNat 0
  else if mode = "fixed1" then
    if pos < 0 ∨ pos ≥ (width : Int) then 1 else row.getD pos.toNat 0
  else if mode = "reflect" then
    let p1 : Int := if pos < 0 then -pos else pos
    let p2 : Int := if p1 ≥ (width : Int) then 2 * ((width : Int) - 1) - p1 else p1
    row.getD (max 0 (min p2 ((width : Int) - 1))).toNat 0
  else if mode = "randomBoundary" then
    if pos < 0 ∨ pos ≥ (width : Int) then (if bCoin pos then 1 else 0)
    else row.getD pos.toNat 0
  else if mode = "gradientBoundary" then
    if pos < 0 then 0
    else if pos ≥ (width : Int) then 1
    else row.getD pos.toNat 0
  else row.getD ((pos + width).tmod width).toNat 0

/-- Body of the per-column loop of computeNextLineWithRule. The effective
rule depends only on the per-row oracle, so hoisting it into the loop body
keeps the once-per-row mutation semantics of the source. -/
def caCell (gridWidth ruleNumber : Nat) (mutationProbability : ℚ)
    (boundaryIndex : Nat) (rng : RowRng) (currentRow : List Nat)
    (prevRow : Option (List Nat)) (useReversible : Bool) (x : Nat) : Nat :=
  let currentRule :=
    getMutatedRule mutationProbability rng.mutCoin rng.mutRand ruleNumber
  let left := getNeighbor boundaryIndex rng.bCoin currentRow ((x : Int) - 1) gridWidth
  let center := currentRow.getD x 0
  let right := getNeighbor boundaryIndex rng.bCoin currentRow ((x : Int) + 1) gridWidth
  let pattern := (left <<< 2) ||| (center <<< 1) ||| right
  let nextState := if (currentRule >>> pattern) &&& 1 = 1 then 1 else 0
  if useReversible then
    match prevRow with
    | some p => nextState ^^^ p.getD x 0
    | none => nextState
  else nextState

/-- computeNextLineWithRule: one evolution step, column by column. -/
def computeNextLineWithRule (gridWidth ruleNumber : Nat)
    (mutationProbability : ℚ) (boundaryIndex : Nat) (rng : RowRng)
    (currentRow : List Nat) (prevRow : Option (List Nat))
    (useReversible : Bool) : List Nat :=
  (List.range gridWidth).map
    (caCell gridWidth ruleNumber mutationProbability boundaryIndex rng
      currentRow prevRow useReversible)

/-- getInitialRow: random seeding, or a single on cell at floor(width/2). -/
def getInitialRow (width : Nat) (useRandom : Bool) (seedCoin : Nat → Bool) :
    List Nat :=
  if useRandom then
    (List.range width).map (fun i => if seedCoin i then 1 else 0)
  else
    (List.range width).map (fun i => if i = width / 2 then 1 else 0)

/-- Loop of applyEffectToStaticGrid: n remaining rows to recompute, y the
row index (selecting the per-row oracle), currentRow the row pushed last,
prevRow the memo threaded only when applyReversible holds. -/
def reinterpretRows (gridWidth ruleNumber : Nat) (mutationProbability : ℚ)
    (boundaryIndex : Nat) (rowRng : Nat → RowRng) (applyReversible : Bool) :
    Nat → Nat → List Nat → Option (List Nat) → List (List Nat)
  | 0, _, _, _ => []
  | n + 1, y, currentRow, prevRow =>
    let nextRow := computeNextLineWithRule gridWidth ruleNumber
      mutationProbability boundaryIndex (rowRng y) currentRow
      (if applyReversible then prevRow else none) applyReversible
    nextRow :: reinterpretRows gridWidth ruleNumber mutationProbability
      boundaryIndex rowRng applyReversible n (y + 1) nextRow
      (if applyReversible then some currentRow else prevRow)

/-- applyEffectToStaticGrid: empty grid returned unchanged; otherwise keep
row 0 as-is and recompute rows 1..N-1 with the new reversible flag. The
applyRandom parameter is accepted and unused, as in the source. -/
def applyEffectToStaticGrid (gridWidth ruleNumber : Nat)
    (mutationProbability : ℚ) (boundaryIndex : Nat) (rowRng : Nat → RowRng)
    (currentGrid : List (List Nat)) (applyReversible applyRandom : Bool) :
    List (List Nat) :=
  match currentGrid with
  | [] => []
  | r0 :: rest =>
    r0 :: reinterpretRows gridWidth ruleNumber mutationProbability
      boundaryIndex rowRng applyReversible rest.length 1 r0 none

/-- Randomness consumed by one grid generation: a coin per seed cell and a
RowRng per computed row. -/
structure Oracle where
  seedCoin : Nat → Bool
  rowRng : Nat → RowRng

/-- Loop of generateInitialGrid over rows y = 1 .. gridHeight-1. -/
def generateRows (gridWidth ruleNumber : Nat) (mutationProbability : ℚ)
    (boundaryIndex : Nat) (rowRng : Nat → RowRng) (reversible : Bool) :
    Nat → Nat → List Nat → Option (List Nat) → List (List Nat)
  | 0, _, _, _ => []
  | n + 1, y, currentRow, prevRow =>
    let nextRow := computeNextLineWithRule gridWidth ruleNumber
      mutationProbability boundaryIndex (rowRng y) currentRow prevRow
      reversible
    nextRow :: generateRows gridWidth ruleNumber mutationProbability
      boundaryIndex rowRng reversible n (y + 1) nextRow
      (if reversible then some currentRow else prevRow)

/-- generateInitialGrid: seed row plus gridHeight-1 evolved rows. -/
def generateInitialGrid (gridWidth gridHeight ruleNumber : Nat)
    (mutationProbability : ℚ) (boundaryIndex : Nat) (orc : Oracle)
    (randomInitial reversible : Bool) : List (List Nat) :=
  let firstRow := getInitialRow gridWidth randomInitial orc.seedCoin
  firstRow :: generateRows gridWidth ruleNumber mutationProbability
    boundaryIndex orc.rowRng reversible (gridHeight - 1) 1 firstRow none

/-- The state object held by the component (setState): grid, monotone line
counter, trailing buffer, and the Date.now stamp of the last update. -/
structure CAState where
  grid : List (List Nat)
  totalLines : Nat
  bufferedLines : List (List Nat)
  lastUpdate : Nat
deriving DecidableEq

/-- JS Array.prototype.slice with a negative argument -k keeps the last k
elements; slice(-0) is slice(0) and keeps everything. -/
def sliceNeg (l : List (List Nat)) (k : Nat) : List (List Nat) :=
  if k = 0 then l else l.drop (l.length - k)

/-- computeNextLine: one animated line, returning the new line and the new
value of the prevLineRef memo (updated only in reversible mode). -/
def computeNextLine (gridWidth ruleNumber : Nat) (mutationProbability : ℚ)
    (boundaryIndex : Nat) (rng : RowRng) (reversible : Bool)
    (prevLineRef : Option (List Nat)) (prevLine : List Nat) :
    List Nat × Option (List Nat) :=
  let nextLine := computeNextLineWithRule gridWidth ruleNumber
    mutationProbability boundaryIndex rng prevLine
    (if reversible then prevLineRef else none) reversible
  (nextLine, if reversible then some prevLine else prevLineRef)

/-- One animation tick (the setState updater inside animate): read the last
line of the grid, compute the next line, drop the oldest row, append the new
one, cap the trailing buffer at twice the window. On an empty grid the
source reads grid[-1], which is undefined: with a positive width the first
getNeighbor call then throws (property read on undefined), modelled as none;
with width 0 the column loop never runs and the computed line is empty. -/
def animateStep (gridWidth gridHeight ruleNumber : Nat)
    (mutationProbability : ℚ) (boundaryIndex : Nat) (reversible : Bool)
    (rng : RowRng) (now : Nat) (s : CAState)
    (prevLineRef : Option (List Nat)) :
    Option (CAState × Option (List Nat)) :=
  match s.grid.getLast? with
  | none =>
    if gridWidth = 0 then
      some ({ grid := s.grid.drop 1 ++ [[]],
              totalLines := s.totalLines + 1,
              bufferedLines := sliceNeg (s.bufferedLines ++ [[]]) (gridHeight * 2),
              lastUpdate := now },
            if reversible then none else prevLineRef)
    else none
  | some lastLine =>
    let step := computeNextLine gridWidth ruleNumber mutationProbability
      boundaryIndex rng reversible prevLineRef lastLine
    some ({ grid := s.grid.drop 1 ++ [step.1],
            totalLines := s.totalLines + 1,
            bufferedLines := sliceNeg (s.bufferedLines ++ [step.1]) (gridHeight * 2),
            lastUpdate := now },
          step.2)

/-- k successive animation ticks, the tick counter i selecting per-tick
randomness and clock readings; none as soon as one tick fails. -/
def animateTicks (gridWidth gridHeight ruleNumber : Nat)
    (mutationProbability : ℚ) (boundaryIndex : Nat) (reversible : Bool)
    (rngs : Nat → RowRng) (nows : Nat → Nat) :
    Nat → Nat → CAState × Option (List Nat) →
    Option (CAState × Option (List Nat))
  | _, 0, sp => some sp
  | i, k + 1, sp =>
    match animateStep gridWidth gridHeight ruleNumber mutationProbability
      boundaryIndex reversible (rngs i) (nows i) sp.1 sp.2 with
    | none => none
    | some sp2 =>
      animateTicks gridWidth gridHeight ruleNumber mutationProbability
        boundaryIndex reversible rngs nows (i + 1) k sp2

/-- The state installed by the mount effect (and by a reset): a freshly
generated grid, totalLines = gridHeight, empty trailing buffer. -/
def mountState (gridWidth gridHeight ruleNumber : Nat)
    (mutationProbability : ℚ) (boundaryIndex : Nat) (orc : Oracle)
    (randomInitial reversible : Bool) (now : Nat) : CAState :=
  { grid := generateInitialGrid gridWidth gridHeight ruleNumber
      mutationProbability boundaryIndex orc randomInitial reversible,
    totalLines := gridHeight,
    bufferedLines := [],
    lastUpdate := now }

/-- The eight configuration keys tracked by prevConfigRef / configChanged. -/
structure Config where
  gridSize : Nat
  ruleNumber : Nat
  reversible : Bool
  mutationProbability : ℚ
  invertColors : Bool
  randomInitial : Bool
  boundaryIndex : Nat
  colorIndex : Nat
deriving DecidableEq

/-- gridWidth = Math.floor(gridSize * (isLargeScreen ? 1.33 : 0.75)),
written with exact rational arithmetic. -/
def gridWidthOf (gridSize : Nat) (isLargeScreen : Bool) : Nat :=
  if isLargeScreen then gridSize * 133 / 100 else gridSize * 3 / 4

/-- The component state visible across renders: the setState object plus the
refs and the hasEverAnimated flag. The presentational scrollRef is omitted.
The prevConfig field is prevConfigRef, read by the configChanged memo and
rewritten by its own effect on every render. -/
structure CompState where
  state : CAState
  hasEverAnimated : Bool
  prevLineRef : Option (List Nat)
  lastEffectState : Bool × Bool
  prevConfig : Config

/-- One committed render after the props settle: configChanged is computed at
render time against the prevConfigRef of the previous render; then the effect
bodies run in declaration order (prevConfigRef update, the reversible and
randomInitial reconciliation effect, the reset effect, the configChanged
regeneration effect, the animation effect start, which sets hasEverAnimated).
Ref writes land immediately; the queued setState updates are batched and
applied in order, each effect reading the grid captured at render time.
The mount-only effect is modelled separately by mountState, and the per-tick
grid updates of a running animation by animateStep. Each regenerating effect
consumes its own randomness (o260, o285, o314, named by source line). -/
def processRender (cfg : Config) (isLargeScreen isAnimating shouldReset : Bool)
    (o260 o285 o314 : Oracle) (now : Nat) (s : CompState) : CompState :=
  let gridHeight := cfg.gridSize
  let gridWidth := gridWidthOf cfg.gridSize isLargeScreen
  let configChanged : Bool := decide (cfg ≠ s.prevConfig)
  -- effect: reconcile a reversible / randomInitial change while static
  let effectsChanged : Bool :=
    (cfg.reversible != s.lastEffectState.1) ||
    (cfg.randomInitial != s.lastEffectState.2)
  let step260 :
      CAState × (Bool × Bool) :=
    if !isAnimating && !shouldReset && decide (0 < s.state.grid.length) then
      if effectsChanged then
        if s.hasEverAnimated then
          ({ s.state with
              grid := applyEffectToStaticGrid gridWidth cfg.ruleNumber
                cfg.mutationProbability cfg.boundaryIndex o260.rowRng
                s.state.grid cfg.reversible cfg.randomInitial },
           (cfg.reversible, cfg.randomInitial))
        else
          ({ s.state with
              grid := generateInitialGrid gridWidth gridHeight cfg.ruleNumber
                cfg.mutationProbability cfg.boundaryIndex o260
                cfg.randomInitial cfg.reversible },
           (cfg.reversible, cfg.randomInitial))
      else (s.state, s.lastEffectState)
    else (s.state, s.lastEffectState)
  -- effect: explicit reset
  let step285 :
      CAState × (Bool × Bool) × Option (List Nat) :=
    if shouldReset then
      (mountState gridWidth gridHeight cfg.ruleNumber cfg.mutationProbability
         cfg.boundaryIndex o285 cfg.randomInitial cfg.reversible now,
       (cfg.reversible, cfg.randomInitial), none)
    else (step260.1, step260.2, s.prevLineRef)
  -- effect: regenerate on any configuration change while static
  let step314 : CAState :=
    if !isAnimating && !shouldReset && configChanged then
      { step285.1 with
          grid := generateInitialGrid gridWidth gridHeight cfg.ruleNumber
            cfg.mutationProbability cfg.boundaryIndex o314
            cfg.randomInitial cfg.reversible,
          totalLines := gridHeight,
          bufferedLines := [],
          lastUpdate := now }
    else step285.1
  { state := step314,
    hasEverAnimated := s.hasEverAnimated || isAnimating,
    prevLineRef := step285.2.2,
    lastEffectState := step285.2.1,
    prevConfig := cfg }

/-- A row is binary when every cell is 0 or 1. -/
def isBinary (r : List Nat) : Prop := ∀ c ∈ r, c = 0 ∨ c = 1

instance (r : List Nat) : Decidable (isBinary r) :=
  inferInstanceAs (Decidable (∀ c ∈ r, c = 0 ∨ c = 1))

/-- Deterministic per-row randomness used for concrete scenarios. -/
def rng0 : RowRng := ⟨0, 0, fun _ => false⟩

/-- Deterministic generation randomness used for concrete scenarios. -/
def oracle0 : Oracle := ⟨fun _ => false, fun _ => rng0⟩

/-- Scenario configuration: 2x2 grid, rule 0, wrap, reversible just turned on. -/
def cfgRevOn : Config := ⟨2, 0, true, 0, false, false, 0, 0⟩

/-- The previous render of cfgRevOn, before the reversible toggle. -/
def cfgRevOff : Config := ⟨2, 0, false, 0, false, false, 0, 0⟩

/-- Component state of a grid that has animated (its top row is no longer the
seed row), observed while static, right before a reversible toggle. -/
def stateAfterAnim : CompState :=
  ⟨⟨[[1, 1], [1, 0]], 2, [], 0⟩, true, none, (false, false), cfgRevOff⟩

/-- Scenario configuration: rule just changed from 0 to 1 (fixed0 boundary). -/
def cfgRuleOne : Config := ⟨2, 1, false, 0, false, false, 1, 0⟩

/-- The previous render of cfgRuleOne, before the rule change. -/
def cfgRuleZero : Config := ⟨2, 0, false, 0, false, false, 1, 0⟩

/-- Component state holding a non-empty prior-row memo, observed while
static, right before a rule-number change. -/
def stateWithMemo : CompState :=
  ⟨⟨[[1, 1], [1, 1]], 2, [], 0⟩, false, some [1, 1], (false, false), cfgRuleZero⟩

/-- Unchanged configuration used for the explicit-reset scenario. -/
def cfgBase : Config := ⟨2, 0, false, 0, false, false, 0, 0⟩

/-- Component state of a grid that has animated (flag set, memo populated),
right before an explicit reset. -/
def stateAnimated : CompState :=
  ⟨⟨[[1, 1], [1, 1]], 5, [[0, 0]], 0⟩, true, some [1, 1], (false, false), cfgBase⟩

/-- A zero-length history inside an otherwise ordinary state object. -/
def emptyHistoryState : CAState := ⟨[], 2, [], 0⟩

/-! Helper lemmas about the embedded definitions. -/

theorem getNeighbor_wrap (c : Int → Bool) (row : List Nat) (pos : Int)
    (W : Nat) :
    getNeighbor 0 c row pos W = row.getD ((pos + W).tmod W).toNat 0 := rfl

theorem getNeighbor_fixed0 (c : Int → Bool) (row : List Nat) (pos : Int)
    (W : Nat) :
    getNeighbor 1 c row pos W =
      if pos < 0 ∨ pos ≥ (W : Int) then 0 else row.getD pos.toNat 0 := rfl

theorem getNeighbor_fixed1 (c : Int → Bool) (row : List Nat) (pos : Int)
    (W : Nat) :
    getNeighbor 2 c row pos W =
      if pos < 0 ∨ pos ≥ (W : Int) then 1 else row.getD pos.toNat 0 := rfl

theorem getNeighbor_reflect (c : Int → Bool) (row : List Nat) (pos : Int)
    (W : Nat) :
    getNeighbor 3 c row pos W =
      (let p1 : Int := if pos < 0 then -pos else pos
       let p2 : Int :=
         if p1 ≥ (W : Int) then 2 * ((W : Int) - 1) - p1 else p1
       row.getD (max 0 (min p2 ((W : Int) - 1))).toNat 0) := rfl

theorem getNeighbor_randomBoundary (c : Int → Bool) (row : List Nat)
    (pos : Int) (W : Nat) :
    getNeighbor 4 c row pos W =
      if pos < 0 ∨ pos ≥ (W : Int) then (if c pos then 1 else 0)
      else row.getD pos.toNat 0 := rfl

theorem getNeighbor_gradient (c : Int → Bool) (row : List Nat) (pos : Int)
    (W : Nat) :
    getNeighbor 5 c row pos W =
      if pos < 0 then 0
      else if pos ≥ (W : Int) then 1
      else row.getD pos.toNat 0 := rfl

theorem getNeighbor_unknown {bIdx : Nat} (h : 6 ≤ bIdx) (c : Int → Bool)
    (row : List Nat) (pos : Int) (W : Nat) :
    getNeighbor bIdx c row pos W = row.getD ((pos + W).tmod W).toNat 0 := by
  have hm : BOUNDARY_MODES[bIdx]? = none :=
    List.getElem?_eq_none (by simpa [BOUNDARY_MODES] using h)
  simp [getNeighbor, List.getD, hm]

theorem intTmod_coe (a b : Nat) :
    Int.tmod (a : Int) (b : Int) = ((a % b : Nat) : Int) := rfl

theorem getD_map_range (f : Nat → Nat) {w x : Nat} (hx : x < w) :
    ((List.range w).map f).getD x 0 = f x := by
  rw [List.getD_eq_getElem?_getD]
  simp [List.getElem?_range, hx]

theorem isBinary_getD {r : List Nat} (h : isBinary r) (i : Nat) :
    r.getD i 0 = 0 ∨ r.getD i 0 = 1 := by
  rw [List.getD_eq_getElem?_getD]
  cases hg : r[i]? with
  | none => simp
  | some v => simpa using h v (List.getElem?_mem hg)

theorem getNeighbor_isBinary (bIdx : Nat) (c : Int → Bool) {row : List Nat}
    (h : isBinary row) (pos : Int) (W : Nat) :
    getNeighbor bIdx c row pos W = 0 ∨ getNeighbor bIdx c row pos W = 1 := by
  rcases lt_or_ge bIdx 6 with hb | hb
  · interval_cases bIdx
    · rw [getNeighbor_wrap]; exact isBinary_getD h _
    · rw [getNeighbor_fixed0]; split
      · exact Or.inl rfl
      · exact isBinary_getD h _
    · rw [getNeighbor_fixed1]; split
      · exact Or.inr rfl
      · exact isBinary_getD h _
    · rw [getNeighbor_reflect]; exact isBinary_getD h _
    · rw [getNeighbor_randomBoundary]; split
      · split
        · exact Or.inr rfl
        · exact Or.inl rfl
      · exact isBinary_getD h _
    · rw [getNeighbor_gradient]; split
      · exact Or.inl rfl
      · split
        · exact Or.inr rfl
        · exact isBinary_getD h _
  · rw [getNeighbor_unknown hb]; exact isBinary_getD h _

theorem xor_of_bits {a b : Nat} (ha : a = 0 ∨ a = 1) (hb : b = 0 ∨ b = 1) :
    a ^^^ b = 0 ∨ a ^^^ b = 1 := by
  rcases ha with rfl | rfl <;> rcases hb with rfl | rfl <;> simp

theorem caCell_rev_some (w rule : Nat) (mp : ℚ) (bIdx : Nat) (rng : RowRng)
    (row p : List Nat) (x : Nat) :
    caCell w rule mp bIdx rng row (some p) true x
      = caCell w rule mp bIdx rng row none false x ^^^ p.getD x 0 := rfl

theorem caCell_base_isBinary (w rule : Nat) (mp : ℚ) (bIdx : Nat)
    (rng : RowRng) (row : List Nat) (x : Nat) :
    caCell w rule mp bIdx rng row none false x = 0 ∨
    caCell w rule mp bIdx rng row none false x = 1 := by
  simp only [caCell]
  split <;> simp <;> omega

theorem caCell_isBinary (w rule : Nat) (mp : ℚ) (bIdx : Nat) (rng : RowRng)
    (row : List Nat) (prev : Option (List Nat))
    (hprev : ∀ p, prev = some p → isBinary p) (rev : Bool) (x : Nat) :
    caCell w rule mp bIdx rng row prev rev x = 0 ∨
    caCell w rule mp bIdx rng row prev rev x = 1 := by
  cases rev with
  | false =>
    have : caCell w rule mp bIdx rng row prev false x
        = caCell w rule mp bIdx rng row none false x := by
      cases prev <;> rfl
    rw [this]; exact caCell_base_isBinary w rule mp bIdx rng row x
  | true =>
    cases prev with
    | none => exact caCell_base_isBinary w rule mp bIdx rng row x
    | some p =>
      rw [caCell_rev_some]
      exact xor_of_bits (caCell_base_isBinary w rule mp bIdx rng row x)
        (isBinary_getD (hprev p rfl) x)

theorem computeNextLineWithRule_length (w rule : Nat) (mp : ℚ) (bIdx : Nat)
    (rng : RowRng) (row : List Nat) (prev : Option (List Nat)) (rev : Bool) :
    (computeNextLineWithRule w rule mp bIdx rng row prev rev).length = w := by
  simp [computeNextLineWithRule]

theorem computeNextLineWithRule_isBinary (w rule : Nat) (mp : ℚ) (bIdx : Nat)
    (rng : RowRng) (row : List Nat) (prev : Option (List Nat))
    (hprev : ∀ p, prev = some p → isBinary p) (rev : Bool) :
    isBinary (computeNextLineWithRule w rule mp bIdx rng row prev rev) := by
  intro cell hc
  obtain ⟨x, -, rfl⟩ := List.mem_map.mp hc
  exact caCell_isBinary w rule mp bIdx rng row prev hprev rev x

theorem generateRows_length (gw rule : Nat) (mp : ℚ) (bIdx : Nat)
    (rowRng : Nat → RowRng) (rev : Bool) :
    ∀ (n y : Nat) (cur : List Nat) (prev : Option (List Nat)),
      (generateRows gw rule mp bIdx rowRng rev n y cur prev).length = n := by
  intro n
  induction n with
  | zero => intro y cur prev; rfl
  | succ m ih =>
    intro y cur prev
    simp only [generateRows, List.length_cons, ih]

theorem generateRows_forall (gw rule : Nat) (mp : ℚ) (bIdx : Nat)
    (rowRng : Nat → RowRng) (rev : Bool) :
    ∀ (n y : Nat) (cur : List Nat) (prev : Option (List Nat)),
      isBinary cur → (∀ p, prev = some p → isBinary p) →
      ∀ r ∈ generateRows gw rule mp bIdx rowRng rev n y cur prev,
        r.length = gw ∧ isBinary r := by
  intro n
  induction n with
  | zero => intro y cur prev _ _ r hr; cases hr
  | succ m ih =>
    intro y cur prev hcur hprev r hr
    have hbin : isBinary
        (computeNextLineWithRule gw rule mp bIdx (rowRng y) cur prev rev) :=
      computeNextLineWithRule_isBinary _ _ _ _ _ _ _ hprev _
    rcases List.mem_cons.mp hr with rfl | hr
    · exact ⟨computeNextLineWithRule_length _ _ _ _ _ _ _ _, hbin⟩
    · refine ih (y + 1) _ _ hbin ?_ r hr
      intro p hp
      split at hp
      · cases hp; exact hcur
      · exact hprev p hp

theorem reinterpretRows_forall (gw rule : Nat) (mp : ℚ) (bIdx : Nat)
    (rowRng : Nat → RowRng) (rev : Bool) :
    ∀ (n y : Nat) (cur : List Nat) (prev : Option (List Nat)),
      isBinary cur → (∀ p, prev = some p → isBinary p) →
      ∀ r ∈ reinterpretRows gw rule mp bIdx rowRng rev n y cur prev,
        r.length = gw ∧ isBinary r := by
  intro n
  induction n with
  | zero => intro y cur prev _ _ r hr; cases hr
  | succ m ih =>
    intro y cur prev hcur hprev r hr
    have hbin : isBinary
        (computeNextLineWithRule gw rule mp bIdx (rowRng y) cur
          (if rev then prev else none) rev) := by
      refine computeNextLineWithRule_isBinary _ _ _ _ _ _ _ ?_ _
      intro p hp
      split at hp
      · exact hprev p hp
      · cases hp
    rcases List.mem_cons.mp hr with rfl | hr
    · exact ⟨computeNextLineWithRule_length _ _ _ _ _ _ _ _, hbin⟩
    · refine ih (y + 1) _ _ hbin ?_ r hr
      intro p hp
      split at hp
      · cases hp; exact hcur
      · exact hprev p hp

theorem getInitialRow_length (w : Nat) (useRandom : Bool)
    (seed : Nat → Bool) : (getInitialRow w useRandom seed).length = w := by
  cases useRandom <;> simp [getInitialRow]

theorem getInitialRow_isBinary (w : Nat) (useRandom : Bool)
    (seed : Nat → Bool) : isBinary (getInitialRow w useRandom seed) := by
  intro c hc
  cases useRandom <;>
    · simp only [getInitialRow, Bool.false_eq_true, if_false, if_true,
        reduceIte] at hc
      obtain ⟨i, -, rfl⟩ := List.mem_map.mp hc
      split <;> simp

theorem generateInitialGrid_length (gw gh rule : Nat) (mp : ℚ) (bIdx : Nat)
    (orc : Oracle) (randInit rev : Bool) (hgh : 1 ≤ gh) :
    (generateInitialGrid gw gh rule mp bIdx orc randInit rev).length = gh := by
  simp only [generateInitialGrid, List.length_cons, generateRows_length]
  omega

theorem generateInitialGrid_forall (gw gh rule : Nat) (mp : ℚ) (bIdx : Nat)
    (orc : Oracle) (randInit rev : Bool) :
    ∀ r ∈ generateInitialGrid gw gh rule mp bIdx orc randInit rev,
      r.length = gw ∧ isBinary r := by
  intro r hr
  rcases List.mem_cons.mp hr with rfl | hr
  · exact ⟨getInitialRow_length _ _ _, getInitialRow_isBinary _ _ _⟩
  · exact generateRows_forall gw rule mp bIdx orc.rowRng rev _ 1 _ none
      (getInitialRow_isBinary _ _ _) (fun p hp => by cases hp) r hr

theorem sliceNeg_length (l : List (List Nat)) {k : Nat} (hk : k ≠ 0) :
    (sliceNeg l k).length = min l.length k := by
  rw [sliceNeg, if_neg hk, List.length_drop]
  omega

theorem animateStep_of_ne_nil (gw gh rule : Nat) (mp : ℚ) (bIdx : Nat)
    (rev : Bool) (rng : RowRng) (now : Nat) (s : CAState)
    (p : Option (List Nat)) (hne : s.grid ≠ []) (hgh : 1 ≤ gh) :
    ∃ sp : CAState × Option (List Nat),
      animateStep gw gh rule mp bIdx rev rng now s p = some sp ∧
      sp.1.grid.length = s.grid.length ∧
      sp.1.totalLines = s.totalLines + 1 ∧
      sp.1.bufferedLines.length =
        min (s.bufferedLines.length + 1) (gh * 2) := by
  obtain ⟨last, hlast⟩ : ∃ a, s.grid.getLast? = some a := by
    cases h : s.grid.getLast? with
    | none => exact absurd (List.getLast?_eq_none_iff.mp h) hne
    | some a => exact ⟨a, rfl⟩
  have hpos : 0 < s.grid.length := List.length_pos.mpr hne
  refine ⟨_, by rw [animateStep, hlast], ?_, rfl, ?_⟩
  · simp only [List.length_append, List.length_drop, List.length_cons,
      List.length_nil]
    omega
  · rw [sliceNeg_length _ (by omega)]
    simp only [List.length_append, List.length_cons, List.length_nil]

theorem animateTicks_invariant (gw gh rule : Nat) (mp : ℚ) (bIdx : Nat)
    (rev : Bool) (rngs : Nat → RowRng) (nows : Nat → Nat) (hgh : 1 ≤ gh) :
    ∀ (k i : Nat) (s : CAState) (p : Option (List Nat)),
      s.grid ≠ [] → s.bufferedLines.length ≤ gh * 2 →
      ∃ sp : CAState × Option (List Nat),
        animateTicks gw gh rule mp bIdx rev rngs nows i k (s, p) = some sp ∧
        sp.1.grid.length = s.grid.length ∧
        sp.1.totalLines = s.totalLines + k ∧
        sp.1.bufferedLines.length =
          min (s.bufferedLines.length + k) (gh * 2) := by
  intro k
  induction k with
  | zero =>
    intro i s p hne hbuf
    refine ⟨(s, p), rfl, rfl, rfl, ?_⟩
    show s.bufferedLines.length = min (s.bufferedLines.length + 0) (gh * 2)
    omega
  | succ m ih =>
    intro i s p hne hbuf
    obtain ⟨sp1, hstep, hg1, ht1, hb1⟩ :=
      animateStep_of_ne_nil gw gh rule mp bIdx rev (rngs i) (nows i) s p hne hgh
    have hne1 : sp1.1.grid ≠ [] := by
      refine List.ne_nil_of_length_pos ?_
      rw [hg1]
      exact List.length_pos.mpr hne
    obtain ⟨sp2, hticks, hg2, ht2, hb2⟩ :=
      ih (i + 1) sp1.1 sp1.2 hne1 (by omega)
    refine ⟨sp2, ?_, by omega, by omega, by omega⟩
    rw [animateTicks, hstep]
    exact hticks

theorem caCell_base_eval (w rule : Nat) (mp : ℚ) (bIdx : Nat) (rng : RowRng)
    (row : List Nat) (x : Nat) :
    caCell w rule mp bIdx rng row none false x =
      if (getMutatedRule mp rng.mutCoin rng.mutRand rule >>>
            ((getNeighbor bIdx rng.bCoin row ((x : Int) - 1) w) <<< 2 |||
              (row.getD x 0) <<< 1 |||
              (getNeighbor bIdx rng.bCoin row ((x : Int) + 1) w))) &&& 1 = 1
      then 1 else 0 := rfl

theorem getMutatedRule_zero (mutCoin : ℚ) (mutRand baseRule : Nat) :
    getMutatedRule 0 mutCoin mutRand baseRule = baseRule := by
  rw [getMutatedRule, if_neg]
  rintro ⟨h0, -⟩
  exact lt_irrefl _ h0

/-! Theorems settling the claims. -/

/-- Claim C2: with mutationProbability = 0 and reversibility off, the cell
the rule evaluator produces at column x equals bit p of ruleNumber, where
p = 4*left + 2*center + right, left and right come from the boundary
resolver at x-1 and x+1, and center is currentRow[x]. -/
theorem ruleEvaluator_matches_rule_bit (w rule bIdx : Nat) (rng : RowRng)
    (row : List Nat) (prev : Option (List Nat)) (x : Nat)
    (hrule : rule ≤ 255) (hx : x < w) (hrow : isBinary row) :
    (computeNextLineWithRule w rule 0 bIdx rng row prev false).getD x 0 =
      if rule.testBit
          (4 * getNeighbor bIdx rng.bCoin row ((x : Int) - 1) w
            + 2 * row.getD x 0
            + getNeighbor bIdx rng.bCoin row ((x : Int) + 1) w)
      then 1 else 0 := by
  rw [computeNextLineWithRule, getD_map_range _ hx]
  have hbase : caCell w rule 0 bIdx rng row prev false x
      = caCell w rule 0 bIdx rng row none false x := by
    cases prev <;> rfl
  rw [hbase, caCell_base_eval, getMutatedRule_zero]
  obtain hl := getNeighbor_isBinary bIdx rng.bCoin hrow ((x : Int) - 1) w
  obtain hc := isBinary_getD hrow x
  obtain hr := getNeighbor_isBinary bIdx rng.bCoin hrow ((x : Int) + 1) w
  have hpat : (getNeighbor bIdx rng.bCoin row ((x : Int) - 1) w) <<< 2 |||
      (row.getD x 0) <<< 1 |||
      (getNeighbor bIdx rng.bCoin row ((x : Int) + 1) w)
      = 4 * getNeighbor bIdx rng.bCoin row ((x : Int) - 1) w
        + 2 * row.getD x 0
        + getNeighbor bIdx rng.bCoin row ((x : Int) + 1) w := by
    rcases hl with h1 | h1 <;> rcases hc with h2 | h2 <;>
      rcases hr with h3 | h3 <;> rw [h1, h2, h3] <;> decide
  rw [hpat]
  have hcond : ∀ p : Nat, ((rule >>> p) &&& 1 = 1) ↔ rule.testBit p = true := by
    intro p
    simp [Nat.testBit_to_div_mod, Nat.shiftRight_eq_div_pow, Nat.and_one_is_mod]
  simp only [hcond]

/-- Witness for C2 at rule 90, width 3, wrap boundary, row [1,0,1], x = 0. -/
theorem ruleEvaluator_matches_rule_bit_witness :
    (computeNextLineWithRule 3 90 0 0 rng0 [1, 0, 1] none false).getD 0 0 =
      if (90).testBit
          (4 * getNeighbor 0 rng0.bCoin [1, 0, 1] ((0 : Int) - 1) 3
            + 2 * ([1, 0, 1] : List Nat).getD 0 0
            + getNeighbor 0 rng0.bCoin [1, 0, 1] ((0 : Int) + 1) 3)
      then 1 else 0 :=
  ruleEvaluator_matches_rule_bit 3 90 0 rng0 [1, 0, 1] none 0
    (by decide) (by decide) (by decide)

/-- Claim C3: the boundary resolver obeys the mode table at indices -1 and W
(wrap, fixed0, fixed1, gradientBoundary; reflect when W > 1), returns
row[index] for every in-range index under every mode, and an unknown
boundary index behaves exactly like wrap. -/
theorem boundary_resolver_table (row : List Nat) (W : Nat) (c : Int → Bool)
    (hlen : row.length = W) (hW : 0 < W) :
    (getNeighbor 0 c row (-1) W = row.getD (W - 1) 0 ∧
      getNeighbor 0 c row (W : Int) W = row.getD 0 0) ∧
    (getNeighbor 1 c row (-1) W = 0 ∧ getNeighbor 1 c row (W : Int) W = 0) ∧
    (getNeighbor 2 c row (-1) W = 1 ∧ getNeighbor 2 c row (W : Int) W = 1) ∧
    (getNeighbor 5 c row (-1) W = 0 ∧ getNeighbor 5 c row (W : Int) W = 1) ∧
    (1 < W →
      getNeighbor 3 c row (-1) W = row.getD 1 0 ∧
      getNeighbor 3 c row (W : Int) W = row.getD (W - 2) 0) ∧
    (∀ bIdx i : Nat, i < W →
      getNeighbor bIdx c row (i : Int) W = row.getD i 0) ∧
    (∀ bIdx : Nat, 6 ≤ bIdx → ∀ pos : Int,
      getNeighbor bIdx c row pos W = getNeighbor 0 c row pos W) := by
  have hidx : ∀ pos : Int, getNeighbor 3 c row pos W =
      row.getD ((max 0 (min
        (if (if pos < 0 then -pos else pos) ≥ (W : Int)
          then 2 * ((W : Int) - 1) - (if pos < 0 then -pos else pos)
          else (if pos < 0 then -pos else pos))
        ((W : Int) - 1))).toNat) 0 := fun pos => rfl
  refine ⟨⟨?_, ?_⟩, ⟨?_, ?_⟩, ⟨?_, ?_⟩, ⟨?_, ?_⟩, ?_, ?_, ?_⟩
  · have hcast : ((-1 : Int) + W) = ((W - 1 : Nat) : Int) := by omega
    rw [getNeighbor_wrap, hcast, intTmod_coe, Int.toNat_natCast,
      Nat.mod_eq_of_lt (by omega)]
  · have hcast : ((W : Int) + W) = ((W + W : Nat) : Int) := by omega
    rw [getNeighbor_wrap, hcast, intTmod_coe, Int.toNat_natCast,
      Nat.add_mod_left, Nat.mod_self]
  · rw [getNeighbor_fixed0, if_pos (by omega)]
  · rw [getNeighbor_fixed0, if_pos (by omega)]
  · rw [getNeighbor_fixed1, if_pos (by omega)]
  · rw [getNeighbor_fixed1, if_pos (by omega)]
  · rw [getNeighbor_gradient, if_pos (by omega)]
  · rw [getNeighbor_gradient, if_neg (by omega), if_pos (by omega)]
  · intro h2
    constructor
    · rw [hidx, if_pos (show (-1 : Int) < 0 by omega),
        if_neg (show ¬(-(-1 : Int) ≥ (W : Int)) by omega)]
      congr 1
      omega
    · rw [hidx, if_neg (show ¬((W : Int) < 0) by omega),
        if_pos (show (W : Int) ≥ (W : Int) by omega)]
      congr 1
      omega
  · intro bIdx i hi
    rcases lt_or_ge bIdx 6 with hb | hb
    · interval_cases bIdx
      · have hcast : ((i : Int) + W) = ((i + W : Nat) : Int) := by omega
        rw [getNeighbor_wrap, hcast, intTmod_coe, Int.toNat_natCast,
          Nat.add_mod_right, Nat.mod_eq_of_lt hi]
      · rw [getNeighbor_fixed0, if_neg (by omega), Int.toNat_natCast]
      · rw [getNeighbor_fixed1, if_neg (by omega), Int.toNat_natCast]
      · rw [hidx, if_neg (show ¬((i : Int) < 0) by omega),
          if_neg (show ¬((i : Int) ≥ (W : Int)) by omega)]
        congr 1
        omega
      · rw [getNeighbor_randomBoundary, if_neg (by omega), Int.toNat_natCast]
      · rw [getNeighbor_gradient, if_neg (by omega), if_neg (by omega),
          Int.toNat_natCast]
    · have hcast : ((i : Int) + W) = ((i + W : Nat) : Int) := by omega
      rw [getNeighbor_unknown hb, hcast, intTmod_coe, Int.toNat_natCast,
        Nat.add_mod_right, Nat.mod_eq_of_lt hi]
  · intro bIdx hb pos
    rw [getNeighbor_unknown hb, getNeighbor_wrap]

/-- Witness for C3 on the width-3 row [1,0,1]. -/
theorem boundary_resolver_table_witness :
    (getNeighbor 0 (fun _ => false) [1, 0, 1] (-1) 3
        = ([1, 0, 1] : List Nat).getD (3 - 1) 0 ∧
      getNeighbor 0 (fun _ => false) [1, 0, 1] ((3 : Nat) : Int) 3
        = ([1, 0, 1] : List Nat).getD 0 0) ∧
    (getNeighbor 1 (fun _ => false) [1, 0, 1] (-1) 3 = 0 ∧
      getNeighbor 1 (fun _ => false) [1, 0, 1] ((3 : Nat) : Int) 3 = 0) ∧
    (getNeighbor 2 (fun _ => false) [1, 0, 1] (-1) 3 = 1 ∧
      getNeighbor 2 (fun _ => false) [1, 0, 1] ((3 : Nat) : Int) 3 = 1) ∧
    (getNeighbor 5 (fun _ => false) [1, 0, 1] (-1) 3 = 0 ∧
      getNeighbor 5 (fun _ => false) [1, 0, 1] ((3 : Nat) : Int) 3 = 1) ∧
    (1 < 3 →
      getNeighbor 3 (fun _ => false) [1, 0, 1] (-1) 3
        = ([1, 0, 1] : List Nat).getD 1 0 ∧
      getNeighbor 3 (fun _ => false) [1, 0, 1] ((3 : Nat) : Int) 3
        = ([1, 0, 1] : List Nat).getD (3 - 2) 0) ∧
    (∀ bIdx i : Nat, i < 3 →
      getNeighbor bIdx (fun _ => false) [1, 0, 1] (i : Int) 3
        = ([1, 0, 1] : List Nat).getD i 0) ∧
    (∀ bIdx : Nat, 6 ≤ bIdx → ∀ pos : Int,
      getNeighbor bIdx (fun _ => false) [1, 0, 1] pos 3
        = getNeighbor 0 (fun _ => false) [1, 0, 1] pos 3) :=
  boundary_resolver_table [1, 0, 1] 3 (fun _ => false) (by decide) (by decide)

/-- Claim C4: in reversible mode, XOR-ing the reversible output with the
plain bit-rule output (same row, same randomness) recovers the previous
row at every column. -/
theorem reversible_xor_roundtrip (w rule : Nat) (mp : ℚ) (bIdx : Nat)
    (rng : RowRng) (rowN rowPrev : List Nat) (x : Nat) (hx : x < w)
    (hN : isBinary rowN) (hP : isBinary rowPrev) :
    ((computeNextLineWithRule w rule mp bIdx rng rowN (some rowPrev) true).getD x 0)
      ^^^ ((computeNextLineWithRule w rule mp bIdx rng rowN none false).getD x 0)
      = rowPrev.getD x 0 := by
  rw [computeNextLineWithRule, computeNextLineWithRule,
    getD_map_range _ hx, getD_map_range _ hx, caCell_rev_some,
    Nat.xor_comm (caCell w rule mp bIdx rng rowN none false x)
      (rowPrev.getD x 0),
    Nat.xor_cancel_right]

/-- Witness for C4 at rule 110, width 3, rows [1,1,0] and [0,1,1], x = 1. -/
theorem reversible_xor_roundtrip_witness :
    ((computeNextLineWithRule 3 110 0 0 rng0 [1, 1, 0] (some [0, 1, 1]) true).getD 1 0)
      ^^^ ((computeNextLineWithRule 3 110 0 0 rng0 [1, 1, 0] none false).getD 1 0)
      = ([0, 1, 1] : List Nat).getD 1 0 :=
  reversible_xor_roundtrip 3 110 0 0 rng0 [1, 1, 0] [0, 1, 1] 1
    (by decide) (by decide) (by decide)

/-- Claim C5: reinterpretation (applyEffectToStaticGrid) leaves row 0 of a
non-empty grid unchanged, whatever the new reversible and randomInitial
values are. -/
theorem reinterpret_preserves_first_row (gw rule : Nat) (mp : ℚ) (bIdx : Nat)
    (rngs : Nat → RowRng) (grid : List (List Nat)) (rev rand : Bool)
    (h : grid ≠ []) :
    (applyEffectToStaticGrid gw rule mp bIdx rngs grid rev rand).head?
      = grid.head? := by
  cases grid with
  | nil => exact absurd rfl h
  | cons r rest => rfl

/-- Witness for C5 on a concrete 2x2 grid with reversible turned on. -/
theorem reinterpret_preserves_first_row_witness :
    (applyEffectToStaticGrid 2 90 0 0 oracle0.rowRng [[1, 1], [0, 1]]
        true false).head? = ([[1, 1], [0, 1]] : List (List Nat)).head? :=
  reinterpret_preserves_first_row 2 90 0 0 oracle0.rowRng [[1, 1], [0, 1]]
    true false (by decide)

/-- Claim C6: generation with gridHeight = H yields exactly H rows and
totalLines = H; k animation steps later the history still has exactly H
rows (one appended, oldest evicted per step), totalLines = H + k, and the
trailing buffer holds min k (2H) rows, so it never exceeds twice the
window and grows by dropping the oldest first. -/
theorem history_length_invariants (gw gh rule : Nat) (mp : ℚ) (bIdx : Nat)
    (orc : Oracle) (randInit rev : Bool) (now : Nat) (rngs : Nat → RowRng)
    (nows : Nat → Nat) (k : Nat) (hgh : 1 ≤ gh) :
    (mountState gw gh rule mp bIdx orc randInit rev now).grid.length = gh ∧
    (mountState gw gh rule mp bIdx orc randInit rev now).totalLines = gh ∧
    (animateTicks gw gh rule mp bIdx rev rngs nows 0 k
        (mountState gw gh rule mp bIdx orc randInit rev now, none)).map
      (fun sp => (sp.1.grid.length, sp.1.totalLines, sp.1.bufferedLines.length))
      = some (gh, gh + k, min k (gh * 2)) := by
  have hlen := generateInitialGrid_length gw gh rule mp bIdx orc randInit rev hgh
  refine ⟨hlen, rfl, ?_⟩
  obtain ⟨sp, hticks, hg, ht, hb⟩ :=
    animateTicks_invariant gw gh rule mp bIdx rev rngs nows hgh k 0
      (mountState gw gh rule mp bIdx orc randInit rev now) none
      (by
        refine List.ne_nil_of_length_pos ?_
        show 0 < (generateInitialGrid gw gh rule mp bIdx orc randInit rev).length
        rw [hlen]; omega)
      (by show (List.length []) ≤ gh * 2; simp)
  rw [hticks]
  show some (sp.1.grid.length, sp.1.totalLines, sp.1.bufferedLines.length) = _
  have h1 : sp.1.grid.length = gh := by rw [hg]; exact hlen
  have h2 : sp.1.totalLines = gh + k := ht
  have h3 : sp.1.bufferedLines.length = min k (gh * 2) := by
    rw [hb]
    show min (List.length [] + k) (gh * 2) = min k (gh * 2)
    simp
  rw [h1, h2, h3]

/-- Witness for C6 with H = 2 and k = 5 steps under rule 90. -/
theorem history_length_invariants_witness :
    (mountState 2 2 90 0 0 oracle0 false false 0).grid.length = 2 ∧
    (mountState 2 2 90 0 0 oracle0 false false 0).totalLines = 2 ∧
    (animateTicks 2 2 90 0 0 false (fun _ => rng0) (fun _ => 0) 0 5
        (mountState 2 2 90 0 0 oracle0 false false 0, none)).map
      (fun sp => (sp.1.grid.length, sp.1.totalLines, sp.1.bufferedLines.length))
      = some (2, 2 + 5, min 5 (2 * 2)) :=
  history_length_invariants 2 2 90 0 0 oracle0 false false 0
    (fun _ => rng0) (fun _ => 0) 5 (by decide)

/-- Counterexample to claim C7: the animation step applied to a zero-length
history is not a no-op returning the input unchanged; it fails (the source
reads the last row of an empty grid and then dereferences undefined). -/
theorem animation_step_empty_history_not_noop :
    animateStep 2 2 90 0 0 false rng0 0 emptyHistoryState none = none ∧
    animateStep 2 2 90 0 0 false rng0 0 emptyHistoryState none ≠
      some (emptyHistoryState, none) := by decide

/-- Claim C7 as amended: on a zero-length history, reinterpretation
(applyEffectToStaticGrid) is a no-op returning the input unchanged, but the
animation step is not: with positive grid width it fails instead of
returning the input. -/
theorem empty_history_reinterpret_noop_but_step_fails :
    (∀ (gw rule : Nat) (mp : ℚ) (bIdx : Nat) (rngs : Nat → RowRng)
        (rev rand : Bool),
        applyEffectToStaticGrid gw rule mp bIdx rngs [] rev rand = []) ∧
    (∀ (gw gh rule : Nat) (mp : ℚ) (bIdx : Nat) (rev : Bool) (rng : RowRng)
        (now : Nat) (s : CAState) (p : Option (List Nat)),
        1 ≤ gw → s.grid = [] →
        animateStep gw gh rule mp bIdx rev rng now s p = none) := by
  constructor
  · intro gw rule mp bIdx rngs rev rand
    rfl
  · intro gw gh rule mp bIdx rev rng now s p hgw hgrid
    rw [animateStep, hgrid]
    show (if gw = 0 then _ else none) = none
    rw [if_neg (by omega)]

/-- Witness for the amended C7 at width 3. -/
theorem empty_history_reinterpret_noop_but_step_fails_witness :
    applyEffectToStaticGrid 3 90 0 0 oracle0.rowRng [] true false = [] ∧
    animateStep 3 3 90 0 0 true rng0 0 emptyHistoryState none = none :=
  ⟨empty_history_reinterpret_noop_but_step_fails.1 3 90 0 0 oracle0.rowRng
      true false,
    empty_history_reinterpret_noop_but_step_fails.2 3 3 90 0 0 true rng0 0
      emptyHistoryState none (by decide) rfl⟩

/-- Claim C10: every row the engine produces is rectangular and binary:
getInitialRow, computeNextLineWithRule, generateInitialGrid and
applyEffectToStaticGrid produce rows of exactly gridWidth cells, each 0 or
1, given binary gridWidth-sized inputs. -/
theorem engine_rows_rectangular_binary (gw gh rule : Nat) (mp : ℚ)
    (bIdx : Nat) (orc : Oracle) (rng : RowRng) (seed : Nat → Bool) :
    (∀ useRandom : Bool, (getInitialRow gw useRandom seed).length = gw ∧
        isBinary (getInitialRow gw useRandom seed)) ∧
    (∀ (row : List Nat) (prev : Option (List Nat)) (rev : Bool),
        row.length = gw → isBinary row →
        (∀ p, prev = some p → isBinary p) →
        (computeNextLineWithRule gw rule mp bIdx rng row prev rev).length = gw ∧
        isBinary (computeNextLineWithRule gw rule mp bIdx rng row prev rev)) ∧
    (∀ randInit rev : Bool,
        ∀ r ∈ generateInitialGrid gw gh rule mp bIdx orc randInit rev,
          r.length = gw ∧ isBinary r) ∧
    (∀ (rngs : Nat → RowRng) (grid : List (List Nat)) (rev rand : Bool),
        (∀ r ∈ grid, r.length = gw ∧ isBinary r) →
        ∀ r ∈ applyEffectToStaticGrid gw rule mp bIdx rngs grid rev rand,
          r.length = gw ∧ isBinary r) := by
  refine ⟨?_, ?_, ?_, ?_⟩
  · intro uR
    exact ⟨getInitialRow_length _ _ _, getInitialRow_isBinary _ _ _⟩
  · intro row prev rev _ _ hprev
    exact ⟨computeNextLineWithRule_length _ _ _ _ _ _ _ _,
      computeNextLineWithRule_isBinary _ _ _ _ _ _ _ hprev _⟩
  · intro rI rev
    exact generateInitialGrid_forall gw gh rule mp bIdx orc rI rev
  · intro rngs grid rev rand hgrid r hr
    cases grid with
    | nil => cases hr
    | cons r0 rest =>
      simp only [applyEffectToStaticGrid] at hr
      rcases List.mem_cons.mp hr with rfl | hr2
      · exact hgrid r (by simp)
      · exact reinterpretRows_forall gw rule mp bIdx rngs rev rest.length 1
          r0 none (hgrid r0 (by simp)).2 (fun p hp => by cases hp) r hr2

/-- Witness for C10: the next-line conjunct at a concrete binary row. -/
theorem engine_rows_rectangular_binary_witness :
    (computeNextLineWithRule 2 90 0 0 rng0 [1, 0] none false).length = 2 ∧
    isBinary (computeNextLineWithRule 2 90 0 0 rng0 [1, 0] none false) :=
  (engine_rows_rectangular_binary 2 2 90 0 0 oracle0 rng0
      (fun _ => false)).2.1 [1, 0] none false (by decide) (by decide)
    (fun p hp => by cases hp)

/-- Claim C1, evaluated at a failing input: while static, with the
has-ever-animated flag set, a render whose only configuration delta is the
reversible toggle ends with the freshly generated grid, not with the
reinterpreted one — the configuration-change regeneration effect, whose key
set includes reversible and randomInitial, runs after the reconciliation
effect in the same commit and overwrites its result. -/
theorem static_reversible_toggle_regenerates_after_animation :
    stateAfterAnim.hasEverAnimated = true ∧
    (processRender cfgRevOn true false false oracle0 oracle0 oracle0 0
        stateAfterAnim).state.grid
      = generateInitialGrid 2 2 0 0 0 oracle0 false true ∧
    applyEffectToStaticGrid 2 0 0 0 oracle0.rowRng stateAfterAnim.state.grid
        true false = [[1, 1], [0, 0]] ∧
    (processRender cfgRevOn true false false oracle0 oracle0 oracle0 0
        stateAfterAnim).state.grid
      ≠ applyEffectToStaticGrid 2 0 0 0 oracle0.rowRng
          stateAfterAnim.state.grid true false := by decide

/-- Counterexample to claim C8: a rule-number change while static
regenerates the grid (a reseed), yet the prior-row memo keeps its old
value instead of being reset to empty. -/
theorem config_regeneration_keeps_prior_row_memo :
    (processRender cfgRuleOne true false false oracle0 oracle0 oracle0 0
        stateWithMemo).state.grid
      = generateInitialGrid 2 2 1 0 1 oracle0 false false ∧
    (processRender cfgRuleOne true false false oracle0 oracle0 oracle0 0
        stateWithMemo).state.grid ≠ stateWithMemo.state.grid ∧
    (processRender cfgRuleOne true false false oracle0 oracle0 oracle0 0
        stateWithMemo).prevLineRef = some [1, 1] := by decide

/-- Claim C8 as amended: the prior-row memo is reset to empty exactly on an
explicit reset; any render without the reset signal — including the
configuration-change regenerations — leaves the memo untouched. -/
theorem prior_row_memo_reset_only_on_explicit_reset (cfg : Config)
    (iL iA sR : Bool) (o1 o2 o3 : Oracle) (now : Nat) (s : CompState) :
    (sR = true →
      (processRender cfg iL iA sR o1 o2 o3 now s).prevLineRef = none) ∧
    (sR = false →
      (processRender cfg iL iA sR o1 o2 o3 now s).prevLineRef
        = s.prevLineRef) := by
  constructor <;> rintro rfl <;> rfl

/-- Witness for the amended C8 at a concrete state and configuration. -/
theorem prior_row_memo_reset_only_on_explicit_reset_witness :
    (processRender cfgRuleOne true false true oracle0 oracle0 oracle0 0
        stateWithMemo).prevLineRef = none ∧
    (processRender cfgRuleOne true false false oracle0 oracle0 oracle0 0
        stateWithMemo).prevLineRef = stateWithMemo.prevLineRef :=
  ⟨(prior_row_memo_reset_only_on_explicit_reset cfgRuleOne true false true
      oracle0 oracle0 oracle0 0 stateWithMemo).1 rfl,
    (prior_row_memo_reset_only_on_explicit_reset cfgRuleOne true false false
      oracle0 oracle0 oracle0 0 stateWithMemo).2 rfl⟩

/-- Counterexample to claim C9: an explicit reset does not clear the
has-ever-animated flag; a reset render starting from a state with the flag
set ends with the flag still set. -/
theorem reset_keeps_hasEverAnimated :
    stateAnimated.hasEverAnimated = true ∧
    (processRender cfgBase true false true oracle0 oracle0 oracle0 7
        stateAnimated).hasEverAnimated = true := by decide

/-- Claim C9 as amended: no render ever clears the has-ever-animated flag;
after any commit — explicit reset included — it equals the old flag OR-ed
with the animation signal, so once set it stays set and a later static
toggle of reversible/randomInitial still selects the reinterpret branch of
the reconciliation effect. -/
theorem hasEverAnimated_never_cleared (cfg : Config) (iL iA sR : Bool)
    (o1 o2 o3 : Oracle) (now : Nat) (s : CompState) :
    (processRender cfg iL iA sR o1 o2 o3 now s).hasEverAnimated
      = (s.hasEverAnimated || iA) := rfl

end CA
